import Mathlib

/-!
Shallow embedding of `scripts/build_bus_regions.py` (PyPSA-Eur fork).

The script assigns each substation bus to a spatial region: in
administrative ("NUTS clustering") mode, the polygon containing the bus
point; otherwise, a Voronoi cell computed by the external routine
`voronoi_partition_pts`, which we model as an opaque function parameter.

Modelling conventions:
* coordinates and areas are rationals (`ℚ`);
* a geometry is a `Shape`: a containment test plus an area;
* a pandas `GeoSeries` indexed by a string key is `List (String × Shape)`;
* pandas `.item()` on a filtered series (exactly-one-element extraction,
  `ValueError` otherwise) is `seriesItem`;
* Python exceptions are the `Except PyError` monad; `df.apply(f, axis=1)`
  is row-by-row `applyRows`, propagating the first exception;
* the heterogeneous `shape_id` column (an administrative-unit id string,
  the Python `None`, an `int` sentinel, or a bus name) is `ShapeId`.
-/

namespace BuildBusRegions

/-- A 2-D point (`shapely.geometry.Point`). -/
structure Point where
  x : ℚ
  y : ℚ

/-- A geometry, abstracted to what the script observes of it: a point
containment test (`shape.contains(p)`) and an area (`.area`). -/
structure Shape where
  contains : Point → Bool
  area : ℚ

/-- One row of the network's bus table `n.buses`. -/
structure Bus where
  name : String
  x : ℚ
  y : ℚ
  country : String
  substation_lv : Bool
  substation_off : Bool

/-- Python exceptions the script can raise: pandas `ValueError` from
`.item()`, and `KeyError` from a label lookup on a series. -/
inductive PyError where
  | valueError : PyError
  | keyError : String → PyError
deriving DecidableEq

/-- Value of the `shape_id` output column: an administrative-unit id
(string), a bus name (string), the integer sentinel `-1`, or `None`. -/
inductive ShapeId where
  | intId : Int → ShapeId
  | strId : String → ShapeId
  | null : ShapeId
deriving DecidableEq

/-- One output region row: `name, x, y, geometry, country, shape_id`.
`geometry` is `none` when the Python row holds `None`. -/
structure Row where
  name : String
  x : ℚ
  y : ℚ
  geometry : Option Shape
  country : String
  shape_id : ShapeId

/-- A pandas `GeoSeries`: geometry values indexed by a string key. -/
abbrev GeoSeries := List (String × Shape)

/-- `nuts_shapes[nuts_shapes.contains(p)]`: the sub-series of shapes
containing the point `p`. -/
def containing (shapes : GeoSeries) (p : Point) : GeoSeries :=
  shapes.filter (fun kv => kv.2.contains p)

/-- pandas `.item()`: the sole element of a series, else `ValueError`. -/
def seriesItem {α : Type} (l : List α) : Except PyError α :=
  match l with
  | [a] => Except.ok a
  | _ => Except.error PyError.valueError

/-- The fixed probe point `Point(9.5, 40)` of the fallback branch. -/
def probePoint : Point := ⟨mkRat 19 2, 40⟩

/-- `locate_bus` (lines 66-73): return the unique shape containing the bus
point; on `ValueError` (zero or several matches) evaluate the probe-point
lookup, DISCARD its result, and fall off the function (Python returns
`None`); a `ValueError` raised by the probe lookup itself propagates. -/
def locate_bus (nuts_shapes : GeoSeries) (coords : Point) :
    Except PyError (Option Shape) :=
  match seriesItem (containing nuts_shapes coords) with
  | Except.ok kv => Except.ok (some kv.2)
  | Except.error _ =>
    match seriesItem (containing nuts_shapes probePoint) with
    | Except.ok _ => Except.ok none
    | Except.error e => Except.error e

/-- `get_id` (lines 75-82): same as `locate_bus` but extracting the index
label (`.index.item()`) instead of the geometry. -/
def get_id (nuts_shapes : GeoSeries) (coords : Point) :
    Except PyError (Option String) :=
  match seriesItem (containing nuts_shapes coords) with
  | Except.ok kv => Except.ok (some kv.1)
  | Except.error _ =>
    match seriesItem (containing nuts_shapes probePoint) with
    | Except.ok _ => Except.ok none
    | Except.error e => Except.error e

/-- `onshore_locs[["x","y"]].apply(f, axis=1)`: apply `f` to the `(x, y)`
coordinates of each row in order, propagating the first exception. -/
def applyRows {α : Type} (f : Point → Except PyError α) :
    List Bus → Except PyError (List α)
  | [] => Except.ok []
  | b :: rest =>
    match f ⟨b.x, b.y⟩ with
    | Except.error e => Except.error e
    | Except.ok a =>
      match applyRows f rest with
      | Except.error e => Except.error e
      | Except.ok as => Except.ok (a :: as)

/-- `get_nuts_shape` (lines 64-86): per-bus containing geometries and ids. -/
def get_nuts_shape (onshore_locs : List Bus) (nuts_shapes : GeoSeries) :
    Except PyError (List (Option Shape) × List (Option String)) :=
  match applyRows (locate_bus nuts_shapes) onshore_locs with
  | Except.error e => Except.error e
  | Except.ok regions =>
    match applyRows (get_id nuts_shapes) onshore_locs with
    | Except.error e => Except.error e
    | Except.ok ids => Except.ok (regions, ids)

/-- Series label lookup `series[key]` (`KeyError` when absent). -/
def seriesGet (s : GeoSeries) (k : String) : Except PyError Shape :=
  match s.find? (fun kv => kv.1 == k) with
  | some kv => Except.ok kv.2
  | none => Except.error (PyError.keyError k)

/-- How a `get_id` result is stored in the `shape_id` column. -/
def idToShapeId : Option String → ShapeId
  | some i => ShapeId.strId i
  | none => ShapeId.null

/-- `gpd.GeoDataFrame({...})` construction: align the bus rows with the
geometry and shape-id arrays positionally, broadcasting `country`. -/
def mkRows (locs : List Bus) (geos : List (Option Shape))
    (ids : List ShapeId) (country : String) : List Row :=
  (locs.zip (geos.zip ids)).map
    (fun bgi => ⟨bgi.1.name, bgi.1.x, bgi.1.y, bgi.2.1, country, bgi.2.2⟩)

/-- `.area` of a row's geometry (offshore rows always carry a shape). -/
def rowArea (r : Row) : ℚ :=
  match r.geometry with
  | some g => g.area
  | none => 0

/-- Line 111: `n.buses.loc[c_b & n.buses.substation_lv, ["x","y"]]`. -/
def onshore_locs_of (buses : List Bus) (country : String) : List Bus :=
  buses.filter (fun b => b.country == country && b.substation_lv)

/-- Line 134: `n.buses.loc[c_b & n.buses.substation_off, ["x","y"]]`. -/
def offshore_locs_of (buses : List Bus) (country : String) : List Bus :=
  buses.filter (fun b => b.country == country && b.substation_off)

/-- One iteration of the `for country in countries` loop (lines 107-145):
returns this country's onshore rows and (possibly empty) offshore rows.
`vor` is the external `voronoi_partition_pts`. The administrative branch
calls `get_nuts_shape` twice, as the source does (lines 114-115). -/
def processCountry (buses : List Bus)
    (country_shapes offshore_shapes nuts_shapes : GeoSeries)
    (nuts_clustering : Bool) (vor : List Point → Shape → List Shape)
    (country : String) : Except PyError (List Row × List Row) :=
  match seriesGet country_shapes country with
  | Except.error e => Except.error e
  | Except.ok onshore_shape =>
    match
      (if nuts_clustering then
        match get_nuts_shape (onshore_locs_of buses country) nuts_shapes with
        | Except.error e => Except.error e
        | Except.ok first =>
          match get_nuts_shape (onshore_locs_of buses country) nuts_shapes with
          | Except.error e => Except.error e
          | Except.ok second => Except.ok (first.1, second.2.map idToShapeId)
      else
        Except.ok
          ((vor ((onshore_locs_of buses country).map (fun b => ⟨b.x, b.y⟩))
              onshore_shape).map some,
            List.replicate (onshore_locs_of buses country).length
              (ShapeId.intId (-1)))
        : Except PyError (List (Option Shape) × List ShapeId)) with
    | Except.error e => Except.error e
    | Except.ok gi =>
      if (offshore_shapes.find? (fun kv => kv.1 == country)).isNone then
        Except.ok (mkRows (onshore_locs_of buses country) gi.1 gi.2 country, [])
      else
        match seriesGet offshore_shapes country with
        | Except.error e => Except.error e
        | Except.ok offshore_shape =>
          Except.ok
            (mkRows (onshore_locs_of buses country) gi.1 gi.2 country,
              (mkRows (offshore_locs_of buses country)
                ((vor ((offshore_locs_of buses country).map (fun b => ⟨b.x, b.y⟩))
                    offshore_shape).map some)
                ((offshore_locs_of buses country).map
                  (fun b => ShapeId.strId b.name)) country).filter
                (fun r => rowArea r > mkRat 1 100))

/-- The country loop (lines 107-145) with the rows of both accumulators
flattened in per-country insertion order; the first exception aborts.
The final `pd.concat` calls of lines 147/149, which also raise on an
empty accumulator, are modelled separately by `pd_concat` on top of
`runLoop`, whose successful flattening this function computes. -/
def runCountries (buses : List Bus)
    (country_shapes offshore_shapes nuts_shapes : GeoSeries)
    (nuts_clustering : Bool) (vor : List Point → Shape → List Shape) :
    List String → Except PyError (List Row × List Row)
  | [] => Except.ok ([], [])
  | c :: rest =>
    match processCountry buses country_shapes offshore_shapes nuts_shapes
      nuts_clustering vor c with
    | Except.error e => Except.error e
    | Except.ok cr =>
      match runCountries buses country_shapes offshore_shapes nuts_shapes
        nuts_clustering vor rest with
      | Except.error e => Except.error e
      | Except.ok rr => Except.ok (cr.1 ++ rr.1, cr.2 ++ rr.2)

/-- The country loop (lines 107-145) keeping the accumulators as Python
does: a list of per-country GeoDataFrames. The onshore frame is appended
unconditionally (line 123); the offshore frame only when the country has
an offshore shape (the `continue` of line 132 skips the append of
line 145, while a country whose cells are all filtered out still appends
an empty frame). -/
def runLoop (buses : List Bus)
    (country_shapes offshore_shapes nuts_shapes : GeoSeries)
    (nuts_clustering : Bool) (vor : List Point → Shape → List Shape) :
    List String → Except PyError (List (List Row) × List (List Row))
  | [] => Except.ok ([], [])
  | c :: rest =>
    match processCountry buses country_shapes offshore_shapes nuts_shapes
      nuts_clustering vor c with
    | Except.error e => Except.error e
    | Except.ok cr =>
      match runLoop buses country_shapes offshore_shapes nuts_shapes
        nuts_clustering vor rest with
      | Except.error e => Except.error e
      | Except.ok rr =>
        Except.ok (cr.1 :: rr.1,
          if (offshore_shapes.find? (fun kv => kv.1 == c)).isNone then rr.2
          else cr.2 :: rr.2)

/-- `pd.concat(frames, ignore_index=True)`: concatenate the frames'
rows; an empty frame list raises `ValueError` ("No objects to
concatenate"). -/
def pd_concat (frames : List (List Row)) : Except PyError (List Row) :=
  match frames with
  | [] => Except.error PyError.valueError
  | _ => Except.ok frames.flatten

/-- Lines 104-149 minus the file writes: the country loop followed by
the two `pd.concat` calls on the onshore and offshore accumulators. -/
def runScript (buses : List Bus)
    (country_shapes offshore_shapes nuts_shapes : GeoSeries)
    (nuts_clustering : Bool) (vor : List Point → Shape → List Shape)
    (countries : List String) : Except PyError (List Row × List Row) :=
  match runLoop buses country_shapes offshore_shapes nuts_shapes
    nuts_clustering vor countries with
  | Except.error e => Except.error e
  | Except.ok acc =>
    match pd_concat acc.1 with
    | Except.error e => Except.error e
    | Except.ok ons =>
      match pd_concat acc.2 with
      | Except.error e => Except.error e
      | Except.ok offs => Except.ok (ons, offs)

/-- The loop iteration with the redundancy of lines 114-115 collapsed:
a single `get_nuts_shape` call supplies both geometry and shape ids. -/
def processCountryOnePass (buses : List Bus)
    (country_shapes offshore_shapes nuts_shapes : GeoSeries)
    (nuts_clustering : Bool) (vor : List Point → Shape → List Shape)
    (country : String) : Except PyError (List Row × List Row) :=
  match seriesGet country_shapes country with
  | Except.error e => Except.error e
  | Except.ok onshore_shape =>
    match
      (if nuts_clustering then
        match get_nuts_shape (onshore_locs_of buses country) nuts_shapes with
        | Except.error e => Except.error e
        | Except.ok only => Except.ok (only.1, only.2.map idToShapeId)
      else
        Except.ok
          ((vor ((onshore_locs_of buses country).map (fun b => ⟨b.x, b.y⟩))
              onshore_shape).map some,
            List.replicate (onshore_locs_of buses country).length
              (ShapeId.intId (-1)))
        : Except PyError (List (Option Shape) × List ShapeId)) with
    | Except.error e => Except.error e
    | Except.ok gi =>
      if (offshore_shapes.find? (fun kv => kv.1 == country)).isNone then
        Except.ok (mkRows (onshore_locs_of buses country) gi.1 gi.2 country, [])
      else
        match seriesGet offshore_shapes country with
        | Except.error e => Except.error e
        | Except.ok offshore_shape =>
          Except.ok
            (mkRows (onshore_locs_of buses country) gi.1 gi.2 country,
              (mkRows (offshore_locs_of buses country)
                ((vor ((offshore_locs_of buses country).map (fun b => ⟨b.x, b.y⟩))
                    offshore_shape).map some)
                ((offshore_locs_of buses country).map
                  (fun b => ShapeId.strId b.name)) country).filter
                (fun r => rowArea r > mkRat 1 100))

/-- The country loop built from the one-pass iteration. -/
def runCountriesOnePass (buses : List Bus)
    (country_shapes offshore_shapes nuts_shapes : GeoSeries)
    (nuts_clustering : Bool) (vor : List Point → Shape → List Shape) :
    List String → Except PyError (List Row × List Row)
  | [] => Except.ok ([], [])
  | c :: rest =>
    match processCountryOnePass buses country_shapes offshore_shapes
      nuts_shapes nuts_clustering vor c with
    | Except.error e => Except.error e
    | Except.ok cr =>
      match runCountriesOnePass buses country_shapes offshore_shapes
        nuts_shapes nuts_clustering vor rest with
      | Except.error e => Except.error e
      | Except.ok rr => Except.ok (cr.1 ++ rr.1, cr.2 ++ rr.2)

/-- A file system: output path to stored region collection, `none` when
no file exists at the path. -/
def FS : Type := String → Option (List Row)

/-- `os.path.exists(fn)`. -/
def pathExists (fs : FS) (fn : String) : Bool := (fs fn).isSome

/-- `os.unlink(fn)`: remove the file at `fn`. -/
def unlink (fs : FS) (fn : String) : FS :=
  fun p => if p = fn then none else fs p

/-- `s.to_file(fn, ...)`: create the file at `fn` holding exactly `s`. -/
def toFile (fs : FS) (fn : String) (s : List Row) : FS :=
  fun p => if p = fn then some s else fs p

/-- `save_to_geojson` (lines 58-62): delete any existing file at `fn`,
then write the collection `s` there. -/
def save_to_geojson (s : List Row) (fn : String) (fs : FS) : FS :=
  let fs1 := if pathExists fs fn then unlink fs fn else fs
  toFile fs1 fn s

/-- Modelled from the spec: "Select onshore buses: country == C AND
substation_lv flag set." -/
def specOnshoreBuses (buses : List Bus) (c : String) : List Bus :=
  buses.filter (fun b => decide (b.country = c ∧ b.substation_lv = true))

/-- Modelled from the spec: "select offshore buses (country == C AND
substation_off flag)". -/
def specOffshoreBuses (buses : List Bus) (c : String) : List Bus :=
  buses.filter (fun b => decide (b.country = c ∧ b.substation_off = true))

/-! ### Concrete fixtures for witnesses and counterexamples -/

/-- A shape containing exactly the probe point `(9.5, 40)`. -/
def shapeProbeOnly : Shape :=
  ⟨fun q => decide (q.x = mkRat 19 2 ∧ q.y = 40), 1⟩

/-- A shape containing exactly the points with `x = 0`. -/
def shapeAtZero : Shape :=
  ⟨fun q => decide (q.x = 0), 1⟩

/-- A shape containing every point. -/
def shapeEverywhere : Shape :=
  ⟨fun _ => true, 1⟩

/-- The origin, a bus point lying in no administrative polygon of
`exNutsOne` and in two polygons of `exNutsTwo`. -/
def exP0 : Point := ⟨0, 0⟩

/-- An administrative series whose only polygon contains the probe point
but not the origin. -/
def exNutsOne : GeoSeries := [("A", shapeProbeOnly)]

/-- An administrative series where polygons `B` and `C` both contain the
origin and only `A` contains the probe point. -/
def exNutsTwo : GeoSeries :=
  [("A", shapeProbeOnly), ("B", shapeAtZero), ("C", shapeAtZero)]

/-! ### Behavior of the fallback branch of `locate_bus` / `get_id` -/

/-- `.item()` on a series whose length is not 1 raises `ValueError`. -/
theorem seriesItem_error {α : Type} (l : List α) (h : l.length ≠ 1) :
    seriesItem l = Except.error PyError.valueError := by
  match l with
  | [] => rfl
  | [a] => exact absurd rfl h
  | a :: b :: t => rfl

/-- `.item()` on a one-element series returns its element. -/
theorem seriesItem_singleton {α : Type} (a : α) :
    seriesItem [a] = Except.ok a := rfl

/-- When the bus point is contained in a number of polygons other than
one while the probe point is contained in exactly one, both `locate_bus`
and `get_id` return `None`: the probe lookup's result is discarded. -/
theorem fallback_returns_none (ns : GeoSeries) (p : Point)
    (h : (containing ns p).length ≠ 1)
    (hp : (containing ns probePoint).length = 1) :
    locate_bus ns p = Except.ok none ∧ get_id ns p = Except.ok none := by
  obtain ⟨a, ha⟩ := List.length_eq_one.mp hp
  rw [locate_bus, get_id, seriesItem_error _ h, ha, seriesItem_singleton]
  exact ⟨rfl, rfl⟩

/-- When the bus point is contained in a number of polygons other than
one and the probe point too, the probe lookup's `ValueError` propagates
out of `locate_bus` and `get_id`. -/
theorem fallback_raises (ns : GeoSeries) (p : Point)
    (h : (containing ns p).length ≠ 1)
    (hp : (containing ns probePoint).length ≠ 1) :
    locate_bus ns p = Except.error PyError.valueError ∧
      get_id ns p = Except.error PyError.valueError := by
  rw [locate_bus, get_id, seriesItem_error _ h, seriesItem_error _ hp]
  exact ⟨rfl, rfl⟩

/-! ### C1: fallback behavior on a bus point in no polygon -/

/-- C1, counterexample. With the one-polygon series `exNutsOne` (polygon
`"A"` contains the probe point `(9.5, 40)` but not the origin), the origin
bus point lies in no polygon, yet `locate_bus` and `get_id` return `None`
rather than polygon `"A"` and id `"A"`: the fallback result is discarded
by the missing `return`, so the claim "it returns the polygon and id that
contain the probe point" is false at this input. -/
theorem c1_counterexample :
    containing exNutsOne exP0 = [] ∧
    containing exNutsOne probePoint = [("A", shapeProbeOnly)] ∧
    locate_bus exNutsOne exP0 = Except.ok none ∧
    get_id exNutsOne exP0 = Except.ok none ∧
    get_id exNutsOne exP0 ≠ Except.ok (some "A") := by
  refine ⟨rfl, rfl, rfl, rfl, fun h => ?_⟩
  rw [show get_id exNutsOne exP0 = Except.ok none from rfl] at h
  exact Option.noConfusion (Except.ok.inj h)

/-- C1, amended: in administrative mode, for a bus point contained in no
administrative polygon, the assigner catches the `ValueError`, evaluates
the fixed-probe-point lookup and discards its result: when the probe
point lies in exactly one polygon, `locate_bus` and `get_id` return
`None` (no polygon or id is assigned); otherwise the probe lookup's own
`ValueError` propagates. -/
theorem c1_no_polygon_fallback (ns : GeoSeries) (p : Point)
    (h : containing ns p = []) :
    if (containing ns probePoint).length = 1 then
      locate_bus ns p = Except.ok none ∧ get_id ns p = Except.ok none
    else
      locate_bus ns p = Except.error PyError.valueError ∧
        get_id ns p = Except.error PyError.valueError := by
  have h1 : (containing ns p).length ≠ 1 := by rw [h]; simp
  by_cases hp : (containing ns probePoint).length = 1
  · rw [if_pos hp]
    exact fallback_returns_none ns p h1 hp
  · rw [if_neg hp]
    exact fallback_raises ns p h1 hp

/-- C1, witness: the amended statement applied to the fixture. -/
theorem c1_no_polygon_fallback_witness :
    if (containing exNutsOne probePoint).length = 1 then
      locate_bus exNutsOne exP0 = Except.ok none ∧
        get_id exNutsOne exP0 = Except.ok none
    else
      locate_bus exNutsOne exP0 = Except.error PyError.valueError ∧
        get_id exNutsOne exP0 = Except.error PyError.valueError :=
  c1_no_polygon_fallback exNutsOne exP0 rfl

/-! ### C2: behavior on a bus point in several polygons -/

/-- C2, counterexample. With `exNutsTwo`, polygons `"B"` and `"C"` both
contain the origin; the claim "first match wins" would make `get_id`
return `"B"`, but pandas `.item()` raises `ValueError` on the
two-element series, the handler runs, and `get_id` returns `None`. -/
theorem c2_counterexample :
    (containing exNutsTwo exP0).length = 2 ∧
    (containing exNutsTwo exP0).map Prod.fst = ["B", "C"] ∧
    locate_bus exNutsTwo exP0 = Except.ok none ∧
    get_id exNutsTwo exP0 = Except.ok none ∧
    get_id exNutsTwo exP0 ≠ Except.ok (some "B") := by
  refine ⟨rfl, rfl, rfl, rfl, fun h => ?_⟩
  rw [show get_id exNutsTwo exP0 = Except.ok none from rfl] at h
  exact Option.noConfusion (Except.ok.inj h)

/-- C2, amended: a bus point contained in more than one administrative
polygon is handled exactly like one contained in none — the `ValueError`
raised by `.item()` is caught and the probe fallback runs, returning
`None` when the probe point lies in exactly one polygon and propagating
the probe's `ValueError` otherwise; no "first match" is ever selected. -/
theorem c2_multi_polygon_fallback (ns : GeoSeries) (p : Point)
    (h : 2 ≤ (containing ns p).length) :
    if (containing ns probePoint).length = 1 then
      locate_bus ns p = Except.ok none ∧ get_id ns p = Except.ok none
    else
      locate_bus ns p = Except.error PyError.valueError ∧
        get_id ns p = Except.error PyError.valueError := by
  have h1 : (containing ns p).length ≠ 1 := by omega
  by_cases hp : (containing ns probePoint).length = 1
  · rw [if_pos hp]
    exact fallback_returns_none ns p h1 hp
  · rw [if_neg hp]
    exact fallback_raises ns p h1 hp

/-- C2, witness: the amended statement applied to the fixture. -/
theorem c2_multi_polygon_fallback_witness :
    if (containing exNutsTwo probePoint).length = 1 then
      locate_bus exNutsTwo exP0 = Except.ok none ∧
        get_id exNutsTwo exP0 = Except.ok none
    else
      locate_bus exNutsTwo exP0 = Except.error PyError.valueError ∧
        get_id exNutsTwo exP0 = Except.error PyError.valueError :=
  c2_multi_polygon_fallback exNutsTwo exP0 (by decide)

/-! ### Index lemmas for `applyRows` and `mkRows` -/

/-- A successful `applyRows` yields one result per input row. -/
theorem applyRows_length {α : Type} (f : Point → Except PyError α)
    (l : List Bus) (ys : List α) (h : applyRows f l = Except.ok ys) :
    ys.length = l.length := by
  induction l generalizing ys with
  | nil =>
    rw [applyRows] at h
    cases Except.ok.inj h
    rfl
  | cons b rest ih =>
    rw [applyRows] at h
    cases hf : f ⟨b.x, b.y⟩ with
    | error e => rw [hf] at h; exact Except.noConfusion h
    | ok a =>
      rw [hf] at h
      cases hr : applyRows f rest with
      | error e => rw [hr] at h; exact Except.noConfusion h
      | ok as =>
        rw [hr] at h
        cases Except.ok.inj h
        simp [ih as hr]

/-- A successful `applyRows` computes, at each index, `f` of that row's
coordinates. -/
theorem applyRows_getElem {α : Type} (f : Point → Except PyError α)
    (l : List Bus) (ys : List α) (i : Nat) (b : Bus) (a : α)
    (h : applyRows f l = Except.ok ys) (hb : l[i]? = some b)
    (hf : f ⟨b.x, b.y⟩ = Except.ok a) : ys[i]? = some a := by
  induction l generalizing ys i with
  | nil => simp at hb
  | cons b0 rest ih =>
    rw [applyRows] at h
    cases hf0 : f ⟨b0.x, b0.y⟩ with
    | error e => rw [hf0] at h; exact Except.noConfusion h
    | ok a0 =>
      rw [hf0] at h
      cases hr : applyRows f rest with
      | error e => rw [hr] at h; exact Except.noConfusion h
      | ok as =>
        rw [hr] at h
        cases Except.ok.inj h
        cases i with
        | zero =>
          simp only [List.getElem?_cons_zero] at hb
          cases Option.some.inj hb
          rw [hf0] at hf
          cases Except.ok.inj hf
          simp
        | succ j =>
          simp only [List.getElem?_cons_succ] at hb ⊢
          exact ih as j hr hb

/-- The region row built at index `i` combines the bus, geometry and
shape id found at index `i` of the three input columns. -/
theorem mkRows_getElem (locs : List Bus) (geos : List (Option Shape))
    (ids : List ShapeId) (c : String) (i : Nat) (b : Bus)
    (g : Option Shape) (s : ShapeId)
    (hb : locs[i]? = some b) (hg : geos[i]? = some g)
    (hs : ids[i]? = some s) :
    (mkRows locs geos ids c)[i]? = some ⟨b.name, b.x, b.y, g, c, s⟩ := by
  induction locs generalizing geos ids i with
  | nil => simp at hb
  | cons b0 rest ih =>
    cases geos with
    | nil => simp at hg
    | cons g0 gs =>
      cases ids with
      | nil => simp at hs
      | cons s0 ss =>
        cases i with
        | zero =>
          simp only [List.getElem?_cons_zero] at hb hg hs
          cases Option.some.inj hb
          cases Option.some.inj hg
          cases Option.some.inj hs
          simp [mkRows]
        | succ j =>
          simp only [List.getElem?_cons_succ] at hb hg hs
          simpa only [mkRows, List.zip_cons_cons, List.map_cons,
            List.getElem?_cons_succ] using ih gs ss j hb hg hs

/-- A successful `get_nuts_shape` is a successful row-wise `locate_bus`
pass and a successful row-wise `get_id` pass. -/
theorem get_nuts_shape_ok (locs : List Bus) (ns : GeoSeries)
    (geos : List (Option Shape)) (ids : List (Option String))
    (h : get_nuts_shape locs ns = Except.ok (geos, ids)) :
    applyRows (locate_bus ns) locs = Except.ok geos ∧
      applyRows (get_id ns) locs = Except.ok ids := by
  rw [get_nuts_shape] at h
  cases h1 : applyRows (locate_bus ns) locs with
  | error e => rw [h1] at h; exact Except.noConfusion h
  | ok regions =>
    rw [h1] at h
    cases h2 : applyRows (get_id ns) locs with
    | error e => rw [h2] at h; exact Except.noConfusion h
    | ok ids2 =>
      rw [h2] at h
      obtain ⟨e1, e2⟩ := Prod.mk.inj (Except.ok.inj h)
      subst e1
      subst e2
      exact ⟨rfl, rfl⟩

/-! ### C9: the null row produced by the discarded fallback -/

/-- A bus of the fixture network sitting at the origin. -/
def busOrigin : Bus := ⟨"b0", 0, 0, "IT", true, false⟩

/-- C9: in administrative mode, when a bus point is contained in a number
of polygons other than one while the fixed probe point `(9.5, 40)` lies
in exactly one polygon, `locate_bus` and `get_id` return `None`, and the
output row built for that bus carries a null geometry and a null
shape id. -/
theorem c9_null_row (ns : GeoSeries) (locs : List Bus) (c : String)
    (geos : List (Option Shape)) (ids : List (Option String))
    (b : Bus) (i : Nat) (hb : locs[i]? = some b)
    (h : (containing ns ⟨b.x, b.y⟩).length ≠ 1)
    (hp : (containing ns probePoint).length = 1)
    (hgn : get_nuts_shape locs ns = Except.ok (geos, ids)) :
    locate_bus ns ⟨b.x, b.y⟩ = Except.ok none ∧
    get_id ns ⟨b.x, b.y⟩ = Except.ok none ∧
    (mkRows locs geos (ids.map idToShapeId) c)[i]? =
      some ⟨b.name, b.x, b.y, none, c, ShapeId.null⟩ := by
  obtain ⟨hloc, hgid⟩ := fallback_returns_none ns ⟨b.x, b.y⟩ h hp
  obtain ⟨hreg, hids⟩ := get_nuts_shape_ok locs ns geos ids hgn
  have hg : geos[i]? = some none :=
    applyRows_getElem (locate_bus ns) locs geos i b none hreg hb hloc
  have hi : ids[i]? = some none :=
    applyRows_getElem (get_id ns) locs ids i b none hids hb hgid
  have hi' : (ids.map idToShapeId)[i]? = some ShapeId.null := by
    rw [List.getElem?_map, hi]
    rfl
  exact ⟨hloc, hgid, mkRows_getElem locs geos (ids.map idToShapeId) c i b
    none ShapeId.null hb hg hi'⟩

/-- C9, witness: the fixture bus at the origin against `exNutsOne`. -/
theorem c9_null_row_witness :
    locate_bus exNutsOne ⟨busOrigin.x, busOrigin.y⟩ = Except.ok none ∧
    get_id exNutsOne ⟨busOrigin.x, busOrigin.y⟩ = Except.ok none ∧
    (mkRows [busOrigin] [none] ([none].map idToShapeId) "IT")[0]? =
      some ⟨busOrigin.name, busOrigin.x, busOrigin.y, none, "IT",
        ShapeId.null⟩ :=
  c9_null_row exNutsOne [busOrigin] "IT" [none] [none] busOrigin 0 rfl
    (by decide) rfl rfl

/-! ### C8: output files are replaced, never appended to -/

/-- C8: when a file exists at the output path, `save_to_geojson` first
deletes it (`os.unlink`) and then writes the new collection, so the final
file holds exactly the new collection: the pre-existing file is replaced,
never appended to or merged. -/
theorem c8_output_replaced (fs : FS) (fn : String) (old s : List Row)
    (hold : fs fn = some old) :
    pathExists fs fn = true ∧
    unlink fs fn fn = none ∧
    save_to_geojson s fn fs = toFile (unlink fs fn) fn s ∧
    save_to_geojson s fn fs fn = some s := by
  have hex : pathExists fs fn = true := by rw [pathExists, hold]; rfl
  refine ⟨hex, ?_, ?_, ?_⟩
  · simp [unlink]
  · rw [save_to_geojson, hex]
    simp
  · simp [save_to_geojson, toFile]

/-- A pre-existing output file holding one stale row. -/
def exStaleRows : List Row := [⟨"stale", 0, 0, none, "XX", ShapeId.null⟩]

/-- A file system with a pre-existing file at the onshore output path. -/
def exFS : FS := fun p =>
  if p = "regions_onshore.geojson" then some exStaleRows else none

/-- The freshly computed collection written over the stale file. -/
def exFreshRows : List Row :=
  [⟨"b0", 0, 0, some shapeEverywhere, "IT", ShapeId.intId (-1)⟩]

/-- C8, witness: writing over the stale fixture file. -/
theorem c8_output_replaced_witness :
    pathExists exFS "regions_onshore.geojson" = true ∧
    unlink exFS "regions_onshore.geojson" "regions_onshore.geojson" = none ∧
    save_to_geojson exFreshRows "regions_onshore.geojson" exFS =
      toFile (unlink exFS "regions_onshore.geojson")
        "regions_onshore.geojson" exFreshRows ∧
    save_to_geojson exFreshRows "regions_onshore.geojson" exFS
      "regions_onshore.geojson" = some exFreshRows :=
  c8_output_replaced exFS "regions_onshore.geojson" exStaleRows exFreshRows
    rfl

/-! ### C7: the bus sets selected per country -/

/-- C7: for every country `c`, the onshore bus selection of the loop body
(line 111) is exactly the buses with `country == c` and the
`substation_lv` flag set, and the offshore selection (line 134) is
exactly the buses with `country == c` and the `substation_off` flag set,
as the spec words them. -/
theorem c7_bus_selection (buses : List Bus) (c : String) :
    onshore_locs_of buses c = specOnshoreBuses buses c ∧
    offshore_locs_of buses c = specOffshoreBuses buses c := by
  constructor
  · apply List.filter_congr
    intro b _
    cases hlv : b.substation_lv <;> by_cases hc : b.country = c <;>
      simp [hlv, hc, specOnshoreBuses]
  · apply List.filter_congr
    intro b _
    cases hoff : b.substation_off <;> by_cases hc : b.country = c <;>
      simp [hoff, hc, specOffshoreBuses]

/-! ### C6: the duplicate `get_nuts_shape` calls are redundant -/

/-- The loop body and its one-pass variant agree: the second
`get_nuts_shape` call recomputes the value of the first. -/
theorem processCountry_onePass_eq (buses : List Bus)
    (cs os ns : GeoSeries) (mode : Bool)
    (vor : List Point → Shape → List Shape) (c : String) :
    processCountry buses cs os ns mode vor c =
      processCountryOnePass buses cs os ns mode vor c := by
  unfold processCountry processCountryOnePass
  cases hsg : seriesGet cs c with
  | error e => rfl
  | ok shp =>
    cases mode with
    | false => rfl
    | true =>
      cases hg : get_nuts_shape (onshore_locs_of buses c) ns with
      | error e => rfl
      | ok pr => rfl

/-- C6: the two successive `get_nuts_shape` calls per country (lines
114-115) are functionally redundant: the run built on a single call whose
two components supply geometry and id produces the same output (onshore
and offshore) for every input. -/
theorem c6_single_pass_equiv (buses : List Bus) (cs os ns : GeoSeries)
    (mode : Bool) (vor : List Point → Shape → List Shape)
    (countries : List String) :
    runCountries buses cs os ns mode vor countries =
      runCountriesOnePass buses cs os ns mode vor countries := by
  induction countries with
  | nil => rfl
  | cons c rest ih =>
    rw [runCountries, runCountriesOnePass, processCountry_onePass_eq, ih]

/-! ### Membership lemmas for `mkRows` -/

/-- One construction step of `mkRows`. -/
theorem mkRows_cons (b : Bus) (bs : List Bus) (g : Option Shape)
    (gs : List (Option Shape)) (i : ShapeId) (is_ : List ShapeId)
    (c : String) :
    mkRows (b :: bs) (g :: gs) (i :: is_) c =
      ⟨b.name, b.x, b.y, g, c, i⟩ :: mkRows bs gs is_ c := rfl

/-- Every built row carries the broadcast country code. -/
theorem mkRows_country (locs : List Bus) (geos : List (Option Shape))
    (ids : List ShapeId) (c : String) (r : Row)
    (hr : r ∈ mkRows locs geos ids c) : r.country = c := by
  obtain ⟨x, _, he⟩ := List.mem_map.mp hr
  rw [← he]

/-- Every built row's shape id comes from the id column. -/
theorem mkRows_shape_id_mem (locs : List Bus) (geos : List (Option Shape))
    (ids : List ShapeId) (c : String) (r : Row)
    (hr : r ∈ mkRows locs geos ids c) : r.shape_id ∈ ids := by
  obtain ⟨x, hx, he⟩ := List.mem_map.mp hr
  have := (List.of_mem_zip (List.of_mem_zip hx).2).2
  rw [← he]
  exact this

/-- When the id column is the bus names themselves (the offshore case),
each row's shape id is its own name. -/
theorem mkRows_strId (locs : List Bus) (geos : List (Option Shape))
    (c : String) (r : Row)
    (hr : r ∈ mkRows locs geos (locs.map (fun b => ShapeId.strId b.name)) c) :
    r.shape_id = ShapeId.strId r.name := by
  induction locs generalizing geos with
  | nil => simp [mkRows] at hr
  | cons b bs ih =>
    cases geos with
    | nil => simp [mkRows] at hr
    | cons g gs =>
      rw [List.map_cons, mkRows_cons] at hr
      rcases List.mem_cons.mp hr with he | ht
      · rw [he]
      · exact ih gs ht

/-! ### Per-country facts used by C4, C5 and C10 -/

/-- Every offshore row a loop iteration emits is for a country present in
the offshore-shapes collection and has area strictly above `1e-2`. -/
theorem processCountry_offshore_mem (buses : List Bus)
    (cs os ns : GeoSeries) (mode : Bool)
    (vor : List Point → Shape → List Shape) (c : String)
    (ons offs : List Row) (r : Row)
    (h : processCountry buses cs os ns mode vor c = Except.ok (ons, offs))
    (hr : r ∈ offs) :
    (os.find? (fun kv => kv.1 == r.country)).isSome = true ∧
      rowArea r > mkRat 1 100 := by
  unfold processCountry at h
  split at h
  · exact Except.noConfusion h
  · split at h
    · exact Except.noConfusion h
    · split at h
      · obtain ⟨_, h2⟩ := Prod.mk.inj (Except.ok.inj h)
        rw [← h2] at hr
        simp at hr
      · rename_i hfind
        split at h
        · exact Except.noConfusion h
        · obtain ⟨_, h2⟩ := Prod.mk.inj (Except.ok.inj h)
          rw [← h2] at hr
          have hmem := List.mem_filter.mp hr
          have hc : r.country = c :=
            mkRows_country _ _ _ c r hmem.1
          refine ⟨?_, by simpa using hmem.2⟩
          rw [hc]
          cases hos : (os.find? (fun kv => kv.1 == c)).isNone
          · simp [Option.isNone_eq_false_iff] at hos
            simpa using hos
          · exact absurd hos (by simpa using hfind)

/-- With administrative mode disabled, every onshore row of a loop
iteration carries the sentinel `-1` and every offshore row its own bus
name as shape id. -/
theorem processCountry_shape_ids (buses : List Bus)
    (cs os ns : GeoSeries) (vor : List Point → Shape → List Shape)
    (c : String) (ons offs : List Row)
    (h : processCountry buses cs os ns false vor c = Except.ok (ons, offs)) :
    (∀ r ∈ ons, r.shape_id = ShapeId.intId (-1)) ∧
      ∀ r ∈ offs, r.shape_id = ShapeId.strId r.name := by
  unfold processCountry at h
  split at h
  · exact Except.noConfusion h
  · rw [if_neg (by simp)] at h
    split at h
    · exact Except.noConfusion h
    · rename_i gi hgi
      obtain ⟨e1, e2⟩ := Prod.mk.inj (Except.ok.inj hgi.symm)
      constructor
      · intro r hr
        have hon : r ∈ mkRows (onshore_locs_of buses c) gi.1 gi.2 c := by
          split at h
          · obtain ⟨h1, _⟩ := Prod.mk.inj (Except.ok.inj h)
            rw [← h1] at hr
            exact hr
          · split at h
            · exact Except.noConfusion h
            · obtain ⟨h1, _⟩ := Prod.mk.inj (Except.ok.inj h)
              rw [← h1] at hr
              exact hr
        have := mkRows_shape_id_mem _ _ _ _ r hon
        rw [e2] at this
        exact List.eq_of_mem_replicate this
      · intro r hr
        split at h
        · obtain ⟨_, h2⟩ := Prod.mk.inj (Except.ok.inj h)
          rw [← h2] at hr
          simp at hr
        · split at h
          · exact Except.noConfusion h
          · obtain ⟨_, h2⟩ := Prod.mk.inj (Except.ok.inj h)
            rw [← h2] at hr
            exact mkRows_strId _ _ c r (List.mem_filter.mp hr).1

/-- C4: every offshore row of the concatenated output belongs to a
country present in the offshore-shapes collection (a country absent from
it contributes zero offshore rows, line 132), and has area strictly
greater than `1e-2` (line 144). -/
theorem c4_offshore_filtered (buses : List Bus) (cs os ns : GeoSeries)
    (mode : Bool) (vor : List Point → Shape → List Shape)
    (countries : List String) (ons offs : List Row)
    (hrun : runCountries buses cs os ns mode vor countries =
      Except.ok (ons, offs)) :
    offs.all (fun r => (os.find? (fun kv => kv.1 == r.country)).isSome &&
      decide (rowArea r > mkRat 1 100)) = true := by
  induction countries generalizing ons offs with
  | nil =>
    rw [runCountries] at hrun
    obtain ⟨_, h2⟩ := Prod.mk.inj (Except.ok.inj hrun)
    rw [← h2]
    rfl
  | cons c rest ih =>
    rw [runCountries] at hrun
    cases hpc : processCountry buses cs os ns mode vor c with
    | error e => rw [hpc] at hrun; exact Except.noConfusion hrun
    | ok cr =>
      rw [hpc] at hrun
      cases hrr : runCountries buses cs os ns mode vor rest with
      | error e => rw [hrr] at hrun; exact Except.noConfusion hrun
      | ok rr =>
        rw [hrr] at hrun
        obtain ⟨_, h2⟩ := Prod.mk.inj (Except.ok.inj hrun)
        rw [← h2]
        apply List.all_eq_true.mpr
        intro r hr
        rcases List.mem_append.mp hr with hmem | hmem
        · obtain ⟨hfind, harea⟩ := processCountry_offshore_mem buses cs os
            ns mode vor c cr.1 cr.2 r (by rw [hpc]) hmem
          simp [hfind, harea]
        · exact List.all_eq_true.mp (ih rr.1 rr.2 (by rw [hrr])) r hmem

/-- A bus that is both an onshore and an offshore substation. -/
def exBusBoth : Bus := ⟨"b1", 1, 2, "IT", true, true⟩

/-- The constant-cell stand-in for `voronoi_partition_pts`: one copy of
the boundary shape per input point. -/
def exVor : List Point → Shape → List Shape :=
  fun pts s => pts.map (fun _ => s)

/-- Country-shape fixture series for Italy. -/
def exCS : GeoSeries := [("IT", shapeEverywhere)]

/-- Offshore-shape fixture series for Italy. -/
def exOS : GeoSeries := [("IT", shapeEverywhere)]

/-- The onshore row the fixture run produces. -/
def exOnRow : Row := ⟨"b1", 1, 2, some shapeEverywhere, "IT", ShapeId.intId (-1)⟩

/-- The offshore row the fixture run produces. -/
def exOffRow : Row := ⟨"b1", 1, 2, some shapeEverywhere, "IT", ShapeId.strId "b1"⟩

/-- C4, witness: the fixture run emits one offshore row, for a country
in the offshore series and with area `1 > 1e-2`. -/
theorem c4_offshore_filtered_witness :
    [exOffRow].all (fun r => (exOS.find? (fun kv => kv.1 == r.country)).isSome &&
      decide (rowArea r > mkRat 1 100)) = true :=
  c4_offshore_filtered [exBusBoth] exCS exOS [] false exVor ["IT"]
    [exOnRow] [exOffRow] rfl

/-! ### C10: shape_id sentinels with administrative mode disabled -/

/-- C10: when administrative mode is disabled, every onshore output row
has `shape_id = -1` (the integer sentinel of line 119) and every offshore
output row has its own bus name as `shape_id` (line 141). -/
theorem c10_sentinel_ids (buses : List Bus) (cs os ns : GeoSeries)
    (vor : List Point → Shape → List Shape) (countries : List String)
    (ons offs : List Row)
    (hrun : runCountries buses cs os ns false vor countries =
      Except.ok (ons, offs)) :
    ons.all (fun r => decide (r.shape_id = ShapeId.intId (-1))) = true ∧
      offs.all (fun r => decide (r.shape_id = ShapeId.strId r.name)) = true := by
  induction countries generalizing ons offs with
  | nil =>
    rw [runCountries] at hrun
    obtain ⟨h1, h2⟩ := Prod.mk.inj (Except.ok.inj hrun)
    rw [← h1, ← h2]
    exact ⟨rfl, rfl⟩
  | cons c rest ih =>
    rw [runCountries] at hrun
    cases hpc : processCountry buses cs os ns false vor c with
    | error e => rw [hpc] at hrun; exact Except.noConfusion hrun
    | ok cr =>
      rw [hpc] at hrun
      cases hrr : runCountries buses cs os ns false vor rest with
      | error e => rw [hrr] at hrun; exact Except.noConfusion hrun
      | ok rr =>
        rw [hrr] at hrun
        obtain ⟨h1, h2⟩ := Prod.mk.inj (Except.ok.inj hrun)
        rw [← h1, ← h2]
        obtain ⟨hon, hoff⟩ := processCountry_shape_ids buses cs os ns vor c
          cr.1 cr.2 (by rw [hpc])
        obtain ⟨ihon, ihoff⟩ := ih rr.1 rr.2 (by rw [hrr])
        constructor
        · apply List.all_eq_true.mpr
          intro r hr
          rcases List.mem_append.mp hr with hmem | hmem
          · simp [hon r hmem]
          · exact List.all_eq_true.mp ihon r hmem
        · apply List.all_eq_true.mpr
          intro r hr
          rcases List.mem_append.mp hr with hmem | hmem
          · simp [hoff r hmem]
          · exact List.all_eq_true.mp ihoff r hmem

/-- C10, witness: the fixture run in Voronoi mode. -/
theorem c10_sentinel_ids_witness :
    [exOnRow].all (fun r => decide (r.shape_id = ShapeId.intId (-1))) = true ∧
      [exOffRow].all (fun r => decide (r.shape_id = ShapeId.strId r.name)) = true :=
  c10_sentinel_ids [exBusBoth] exCS exOS [] exVor ["IT"]
    [exOnRow] [exOffRow] rfl

/-! ### C5: which missing inputs abort the run -/

/-- A loop iteration for a country absent from the offshore-shapes
series emits no offshore rows (the `continue` of line 132). -/
theorem processCountry_skip (buses : List Bus) (cs os ns : GeoSeries)
    (mode : Bool) (vor : List Point → Shape → List Shape) (c : String)
    (ons offs : List Row)
    (hskip : (os.find? (fun kv => kv.1 == c)).isNone = true)
    (h : processCountry buses cs os ns mode vor c = Except.ok (ons, offs)) :
    offs = [] := by
  unfold processCountry at h
  split at h
  · exact Except.noConfusion h
  · split at h
    · exact Except.noConfusion h
    · split at h
      · exact ((Prod.mk.inj (Except.ok.inj h)).2).symm
      · rename_i hcond
        exact absurd hskip hcond

/-- Flattening the frame-level accumulators of `runLoop` yields the
row-level accumulators of `runCountries`. -/
theorem runLoop_flatten (buses : List Bus) (cs os ns : GeoSeries)
    (mode : Bool) (vor : List Point → Shape → List Shape)
    (countries : List String)
    (acc : List (List Row) × List (List Row))
    (h : runLoop buses cs os ns mode vor countries = Except.ok acc) :
    runCountries buses cs os ns mode vor countries =
      Except.ok (acc.1.flatten, acc.2.flatten) := by
  induction countries generalizing acc with
  | nil =>
    rw [runLoop] at h
    rw [runCountries, ← Except.ok.inj h]
    rfl
  | cons c rest ih =>
    rw [runLoop] at h
    rw [runCountries]
    cases hpc : processCountry buses cs os ns mode vor c with
    | error e => rw [hpc] at h; exact Except.noConfusion h
    | ok cr =>
      rw [hpc] at h
      cases hrl : runLoop buses cs os ns mode vor rest with
      | error e => rw [hrl] at h; exact Except.noConfusion h
      | ok rr =>
        rw [hrl] at h
        rw [ih rr hrl]
        rw [← Except.ok.inj h]
        cases hskip : (os.find? (fun kv => kv.1 == c)).isNone with
        | true =>
          have hoff : cr.2 = [] := processCountry_skip buses cs os ns mode
            vor c cr.1 cr.2 hskip (by rw [hpc])
          simp [hskip, hoff]
        | false => simp [hskip]

/-- A successful `pd.concat` returns the concatenation of its frames. -/
theorem pd_concat_ok (frames : List (List Row)) (l : List Row)
    (h : pd_concat frames = Except.ok l) : frames.flatten = l := by
  cases frames with
  | nil => exact Except.noConfusion h
  | cons a t => exact Except.ok.inj h

/-- A successful full script run flattens to the same row collections
`runCountries` computes. -/
theorem runScript_runCountries (buses : List Bus) (cs os ns : GeoSeries)
    (mode : Bool) (vor : List Point → Shape → List Shape)
    (countries : List String) (ons offs : List Row)
    (h : runScript buses cs os ns mode vor countries =
      Except.ok (ons, offs)) :
    runCountries buses cs os ns mode vor countries =
      Except.ok (ons, offs) := by
  unfold runScript at h
  split at h
  · exact Except.noConfusion h
  · rename_i acc hacc
    rw [runLoop_flatten buses cs os ns mode vor countries acc hacc]
    cases hc1 : pd_concat acc.1 with
    | error e => rw [hc1] at h; exact Except.noConfusion h
    | ok ons1 =>
      rw [hc1] at h
      cases hc2 : pd_concat acc.2 with
      | error e => rw [hc2] at h; exact Except.noConfusion h
      | ok offs1 =>
        rw [hc2] at h
        obtain ⟨e1, e2⟩ := Prod.mk.inj (Except.ok.inj h)
        rw [pd_concat_ok acc.1 ons1 hc1, pd_concat_ok acc.2 offs1 hc2,
          e1, e2]

/-- With aligned column lengths, the built rows carry exactly the
selected buses' names and coordinates, in order. -/
theorem mkRows_map_key (locs : List Bus) (geos : List (Option Shape))
    (ids : List ShapeId) (c : String)
    (hg : geos.length = locs.length) (hi : ids.length = locs.length) :
    (mkRows locs geos ids c).map (fun r => (r.name, r.x, r.y)) =
      locs.map (fun b => (b.name, b.x, b.y)) := by
  induction locs generalizing geos ids with
  | nil => rfl
  | cons b bs ih =>
    cases geos with
    | nil => simp at hg
    | cons g gs =>
      cases ids with
      | nil => simp at hi
      | cons i is_ =>
        rw [mkRows_cons, List.map_cons, List.map_cons]
        rw [ih gs is_ (by simpa using hg) (by simpa using hi)]

/-- Counting rows by `(name, x, y)` key factors through a key-wise equal
bus list. -/
theorem countP_key_eq (l1 : List Row) (l2 : List Bus)
    (k : String × ℚ × ℚ)
    (h : l1.map (fun r => (r.name, r.x, r.y)) =
      l2.map (fun b => (b.name, b.x, b.y))) :
    l1.countP (fun r => decide ((r.name, r.x, r.y) = k)) =
      l2.countP (fun b => decide ((b.name, b.x, b.y) = k)) := by
  have h1 : l1.countP (fun r => decide ((r.name, r.x, r.y) = k)) =
      (l1.map (fun r => (r.name, r.x, r.y))).countP
        (fun t => decide (t = k)) := by
    rw [List.countP_map]
    rfl
  have h2 : l2.countP (fun b => decide ((b.name, b.x, b.y) = k)) =
      (l2.map (fun b => (b.name, b.x, b.y))).countP
        (fun t => decide (t = k)) := by
    rw [List.countP_map]
    rfl
  rw [h1, h2, h]

/-- In a bus list with pairwise distinct names, a member bus is counted
exactly once by its `(name, x, y)` key. -/
theorem countP_key_of_nodup (l : List Bus) (b : Bus)
    (hnodup : (l.map Bus.name).Nodup) (hb : b ∈ l) :
    l.countP (fun x => decide ((x.name, x.x, x.y) = (b.name, b.x, b.y))) = 1 := by
  induction l with
  | nil => simp at hb
  | cons a t ih =>
    rw [List.map_cons, List.nodup_cons] at hnodup
    obtain ⟨ha, ht⟩ := hnodup
    rcases List.mem_cons.mp hb with he | hbt
    · rw [he]
      rw [List.countP_cons_of_pos _ _ (by simp)]
      have hz : t.countP
          (fun x => decide ((x.name, x.x, x.y) = (a.name, a.x, a.y))) = 0 := by
        apply List.countP_eq_zero.mpr
        intro x hx hkey
        apply ha
        rw [decide_eq_true_iff] at hkey
        exact List.mem_map.mpr ⟨x, hx, congrArg Prod.fst hkey⟩
      rw [hz]
    · have hane : a.name ≠ b.name := by
        intro he
        exact ha (he ▸ List.mem_map.mpr ⟨b, hbt, rfl⟩)
      rw [List.countP_cons_of_neg _ _ (by
        simp only [decide_eq_true_iff]
        intro hkey
        exact hane (congrArg Prod.fst hkey))]
      exact ih ht hbt

/-- Unfolding the administrative branch of the loop body: a successful
result is a successful `get_nuts_shape`, whose first component supplies
the geometry and whose second, converted, the shape ids. -/
theorem nuts_branch_ok (locs : List Bus) (ns : GeoSeries)
    (gi : List (Option Shape) × List ShapeId)
    (h : (match get_nuts_shape locs ns with
          | Except.error e => Except.error e
          | Except.ok first =>
            match get_nuts_shape locs ns with
            | Except.error e => Except.error e
            | Except.ok second =>
              Except.ok (first.1, second.2.map idToShapeId)) =
        Except.ok gi) :
    ∃ pr, get_nuts_shape locs ns = Except.ok pr ∧
      gi = (pr.1, pr.2.map idToShapeId) := by
  cases hg : get_nuts_shape locs ns with
  | error e => rw [hg] at h; exact Except.noConfusion h
  | ok pr =>
    rw [hg] at h
    exact ⟨pr, rfl, (Except.ok.inj h).symm⟩

/-- A loop iteration's onshore rows list all and only the onshore
selection's buses, keyed by name and coordinates, provided the Voronoi
routine honours its one-cell-per-point contract. -/
theorem processCountry_onshore_key (buses : List Bus)
    (cs os ns : GeoSeries) (mode : Bool)
    (vor : List Point → Shape → List Shape) (c : String)
    (ons offs : List Row)
    (hvor : ∀ pts s, (vor pts s).length = pts.length)
    (h : processCountry buses cs os ns mode vor c = Except.ok (ons, offs)) :
    ons.map (fun r => (r.name, r.x, r.y)) =
      (onshore_locs_of buses c).map (fun b => (b.name, b.x, b.y)) := by
  unfold processCountry at h
  split at h
  · exact Except.noConfusion h
  · split at h
    · exact Except.noConfusion h
    · rename_i gi hgi
      have hlen : gi.1.length = (onshore_locs_of buses c).length ∧
          gi.2.length = (onshore_locs_of buses c).length := by
        cases mode with
        | false =>
          rw [if_neg (by simp)] at hgi
          obtain ⟨e1, e2⟩ := Prod.mk.inj (Except.ok.inj hgi)
          constructor
          · rw [← e1]
            simp [hvor]
          · rw [← e2]
            simp
        | true =>
          rw [if_pos rfl] at hgi
          obtain ⟨pr, hpr, hgieq⟩ := nuts_branch_ok _ _ _ hgi
          obtain ⟨hreg, hids⟩ := get_nuts_shape_ok _ _ pr.1 pr.2 hpr
          rw [hgieq]
          constructor
          · exact applyRows_length _ _ _ hreg
          · simp only [List.length_map]
            exact applyRows_length _ _ _ hids
      split at h
      · obtain ⟨h1, _⟩ := Prod.mk.inj (Except.ok.inj h)
        rw [← h1]
        exact mkRows_map_key _ _ _ _ hlen.1 hlen.2
      · split at h
        · exact Except.noConfusion h
        · obtain ⟨h1, _⟩ := Prod.mk.inj (Except.ok.inj h)
          rw [← h1]
          exact mkRows_map_key _ _ _ _ hlen.1 hlen.2

/-- A loop iteration contributes exactly one onshore row keyed like an
onshore-capable bus when the iteration's country is the bus's, and none
otherwise. -/
theorem processCountry_count (buses : List Bus) (cs os ns : GeoSeries)
    (mode : Bool) (vor : List Point → Shape → List Shape) (c : String)
    (ons offs : List Row) (b : Bus)
    (hvor : ∀ pts s, (vor pts s).length = pts.length)
    (hnames : (buses.map Bus.name).Nodup)
    (hb : b ∈ buses) (hlv : b.substation_lv = true)
    (h : processCountry buses cs os ns mode vor c = Except.ok (ons, offs)) :
    ons.countP (fun r => decide ((r.name, r.x, r.y) = (b.name, b.x, b.y))) =
      if b.country = c then 1 else 0 := by
  rw [countP_key_eq ons (onshore_locs_of buses c) (b.name, b.x, b.y)
    (processCountry_onshore_key buses cs os ns mode vor c ons offs hvor h)]
  by_cases hbc : b.country = c
  · rw [if_pos hbc]
    have hmem : b ∈ onshore_locs_of buses c :=
      List.mem_filter.mpr ⟨hb, by simp [hbc, hlv]⟩
    have hsub : List.Sublist ((onshore_locs_of buses c).map Bus.name)
        (buses.map Bus.name) :=
      (List.filter_sublist buses).map Bus.name
    exact countP_key_of_nodup _ b (hnames.sublist hsub) hmem
  · rw [if_neg hbc]
    apply List.countP_eq_zero.mpr
    intro x hx hkey
    rw [decide_eq_true_iff] at hkey
    have hxb : x = b :=
      List.inj_on_of_nodup_map hnames
        (List.mem_of_mem_filter hx) hb (congrArg Prod.fst hkey)
    have hxc : x.country = c := by
      have := (List.mem_filter.mp hx).2
      simp only [Bool.and_eq_true, beq_iff_eq] at this
      exact this.1
    exact hbc (hxb ▸ hxc)

/-- Countries other than a bus's own contribute no onshore row keyed
like that bus. -/
theorem runCountries_count_zero (buses : List Bus) (cs os ns : GeoSeries)
    (mode : Bool) (vor : List Point → Shape → List Shape)
    (countries : List String) (ons offs : List Row) (b : Bus)
    (hvor : ∀ pts s, (vor pts s).length = pts.length)
    (hnames : (buses.map Bus.name).Nodup)
    (hb : b ∈ buses) (hlv : b.substation_lv = true)
    (hnc : b.country ∉ countries)
    (hrun : runCountries buses cs os ns mode vor countries =
      Except.ok (ons, offs)) :
    ons.countP (fun r => decide ((r.name, r.x, r.y) = (b.name, b.x, b.y))) = 0 := by
  induction countries generalizing ons offs with
  | nil =>
    rw [runCountries] at hrun
    obtain ⟨h1, _⟩ := Prod.mk.inj (Except.ok.inj hrun)
    rw [← h1]
    rfl
  | cons c rest ih =>
    rw [runCountries] at hrun
    cases hpc : processCountry buses cs os ns mode vor c with
    | error e => rw [hpc] at hrun; exact Except.noConfusion hrun
    | ok cr =>
      rw [hpc] at hrun
      cases hrr : runCountries buses cs os ns mode vor rest with
      | error e => rw [hrr] at hrun; exact Except.noConfusion hrun
      | ok rr =>
        rw [hrr] at hrun
        obtain ⟨h1, _⟩ := Prod.mk.inj (Except.ok.inj hrun)
        rw [← h1, List.countP_append]
        have hz1 := processCountry_count buses cs os ns mode vor c cr.1
          cr.2 b hvor hnames hb hlv (by rw [hpc])
        rw [if_neg (fun he => hnc (by rw [he]; exact List.mem_cons_self c rest))] at hz1
        rw [hz1, ih rr.1 rr.2 (fun hm => hnc (List.mem_cons_of_mem c hm))
          (by rw [hrr])]

/-- C3: for every processed country and every bus with that country code
and the `substation_lv` flag set, the concatenated onshore output
contains exactly one row whose name and coordinates match that bus
(assuming pairwise distinct bus names, a duplicate-free configured
country list, and the Voronoi routine's one-cell-per-point contract). -/
theorem c3_exactly_one_onshore_row (buses : List Bus)
    (cs os ns : GeoSeries) (mode : Bool)
    (vor : List Point → Shape → List Shape) (countries : List String)
    (ons offs : List Row) (b : Bus)
    (hvor : ∀ pts s, (vor pts s).length = pts.length)
    (hnames : (buses.map Bus.name).Nodup)
    (hcountries : countries.Nodup)
    (hb : b ∈ buses) (hlv : b.substation_lv = true)
    (hc : b.country ∈ countries)
    (hrun : runCountries buses cs os ns mode vor countries =
      Except.ok (ons, offs)) :
    ons.countP (fun r => decide ((r.name, r.x, r.y) = (b.name, b.x, b.y))) = 1 := by
  induction countries generalizing ons offs with
  | nil => simp at hc
  | cons c rest ih =>
    rw [runCountries] at hrun
    cases hpc : processCountry buses cs os ns mode vor c with
    | error e => rw [hpc] at hrun; exact Except.noConfusion hrun
    | ok cr =>
      rw [hpc] at hrun
      cases hrr : runCountries buses cs os ns mode vor rest with
      | error e => rw [hrr] at hrun; exact Except.noConfusion hrun
      | ok rr =>
        rw [hrr] at hrun
        obtain ⟨h1, _⟩ := Prod.mk.inj (Except.ok.inj hrun)
        rw [← h1, List.countP_append]
        rw [List.nodup_cons] at hcountries
        have hcnt := processCountry_count buses cs os ns mode vor c cr.1
          cr.2 b hvor hnames hb hlv (by rw [hpc])
        rcases List.mem_cons.mp hc with he | hrest
        · rw [if_pos he] at hcnt
          rw [hcnt, runCountries_count_zero buses cs os ns mode vor rest
            rr.1 rr.2 b hvor hnames hb hlv (he ▸ hcountries.1) (by rw [hrr])]
        · have hne : b.country ≠ c := fun he => by
            rw [he] at hrest
            exact hcountries.1 hrest
          rw [if_neg hne] at hcnt
          rw [hcnt, ih rr.1 rr.2 hcountries.2 hrest (by rw [hrr])]

/-- C3, witness: the fixture run contains exactly one onshore row keyed
like the fixture bus. -/
theorem c3_exactly_one_onshore_row_witness :
    [exOnRow].countP (fun r => decide ((r.name, r.x, r.y) =
      (exBusBoth.name, exBusBoth.x, exBusBoth.y))) = 1 :=
  c3_exactly_one_onshore_row [exBusBoth] exCS exOS [] false exVor ["IT"]
    [exOnRow] [exOffRow] exBusBoth
    (fun pts s => by simp [exVor]) (by simp) (by simp) (by simp) rfl
    (by simp [exBusBoth]) rfl

end BuildBusRegions
